import Mathlib

/-!
# TrainLytics performance aggregator — shallow embedding

Shallow embedding of the analytics aggregation module of
`src/Trainlytics/firebase-loader.js` (class `TeamPerformanceAnalytics`),
together with proofs settling the frozen claims about it.

Modelling conventions:
* JavaScript numbers are modelled as exact rationals (`ℚ`); the claims are
  stated over exact arithmetic.
* A field that may be `undefined`/`null`/absent is an `Option`.  The JS
  idiom `x || d` on strings treats `undefined`, `null` and `""` as falsy;
  `jsOr` reproduces that.
* `parseFloat(x) || 0` is modelled by carrying the parsed value as
  `Option ℚ` (`none` = missing or non-numeric, i.e. `NaN`) and taking
  `.getD 0`.
* Dates are modelled pre-parsed as `Option ℤ` (epoch-style key used only
  for ordering).  A record with an unparseable date sorts with key 0; no
  claim below depends on the placement of such records.
* `Array.prototype.sort` (a stable comparison sort) is modelled by
  `List.insertionSort` with the comparator's `≤` relation; all properties
  proved below are invariant under which stable sort is used.
* `Math.round x` is `⌊x + 1/2⌋` (JS rounds half towards `+∞`).
-/

/-- JS `a || d` for an optional string: `undefined`/`null`/`""` fall back. -/
def jsOr (a : Option String) (d : String) : String :=
  match a with
  | none => d
  | some s => if s = "" then d else s

/-- JS `Math.round (q * 100) / 100`: round to 2 decimal places. -/
def round2 (q : ℚ) : ℚ := (⌊q * 100 + 1 / 2⌋ : ℚ) / 100

/-- JS `Math.round (q * 10) / 10`: round to 1 decimal place. -/
def round1 (q : ℚ) : ℚ := (⌊q * 10 + 1 / 2⌋ : ℚ) / 10

/-- ASCII lowercase of a character. -/
def charLower (c : Char) : Char :=
  if 'A' ≤ c ∧ c ≤ 'Z' then Char.ofNat (c.toNat + 32) else c

/-- JS `toLowerCase()`, modelled as ASCII lowering (all statuses the code
compares against are ASCII). -/
def strLower (s : String) : String := ⟨s.data.map charLower⟩

/-- The attendance statuses that count as participating
(`['present', 'late', 'left early', 'late arrival']`). -/
def participatingStatuses : List String :=
  ["present", "late", "left early", "late arrival"]

/-- `(athlete.attendance || 'Present').toLowerCase()`. -/
def attendanceNormalized (a : Option String) : String :=
  strLower (jsOr a "Present")

/-- The code's participation test: normalize (defaulting a missing/empty
status to `'Present'`), lowercase, and test membership in
`participatingStatuses`. -/
def participatesB (a : Option String) : Bool :=
  participatingStatuses.contains (attendanceNormalized a)

/-- The literal reading of the spec's participating-attendance rule: the
record's own attendance value is one of the four participating statuses,
case-insensitively.  A record with no attendance value has no participating
attendance under this reading.  (Kept for comparison with `participatesB`.) -/
def strictParticipatesB (a : Option String) : Bool :=
  match a with
  | none => false
  | some s => participatingStatuses.contains (strLower s)

/-- `TrainingSession` input record. -/
structure TrainingSession where
  id : ℕ
  sessionName : Option String
  sessionDate : Option ℤ
  deriving Repr, DecidableEq

/-- `AthleteSessionRecord` input record.  Numeric stats carry the parsed
value, `none` when missing/non-numeric. -/
structure AthleteRecord where
  sessionId : ℕ
  athleteId : ℕ
  athleteName : Option String
  sessionName : Option String
  sessionDate : Option ℤ
  attendance : Option String
  points : Option ℚ
  rebounds : Option ℚ
  assists : Option ℚ
  turnovers : Option ℚ
  fouls : Option ℚ
  rpe : Option ℚ
  deriving Repr, DecidableEq

/-- Derived `SessionStat`. -/
structure SessionStat where
  sessionId : ℕ
  sessionName : String
  sessionDate : Option ℤ
  totalPoints : ℚ
  participatingAthletes : ℕ
  avgPointsPerPlayer : ℚ
  deriving Repr, DecidableEq

/-- `Math.min(...l)` over a non-empty list (empty case guarded by callers). -/
def listMin (l : List ℚ) : ℚ :=
  match l with
  | [] => 0
  | x :: xs => xs.foldl min x

/-- `Math.max(...l)` over a non-empty list (empty case guarded by callers). -/
def listMax (l : List ℚ) : ℚ :=
  match l with
  | [] => 0
  | x :: xs => xs.foldl max x

/-- Population mean, as computed inline by `calculateConsistency`. -/
def listMean (l : List ℚ) : ℚ := l.sum / l.length

/-- Population variance, as computed inline by `calculateConsistency`. -/
def listVariance (l : List ℚ) : ℚ :=
  (l.map (fun p => (p - listMean l) ^ 2)).sum / l.length

/-- Helper for `calculateConsistency`.  The source computes
`Math.round(Math.max(0, Math.min(100, (1 - cv) * 100)) * 10) / 10` with
`cv = Math.sqrt variance / mean` (for `mean > 0`).  Since the square root
is irrational in general, the embedding computes the same rounded score by
its defining property: the result is `k / 10` where `k` is the greatest
integer `k ≤ 1000` with `1000 * sqrt v / m ≤ 1000.5 - k`; squaring (both
sides are nonnegative for `k ≤ 1000`) gives the rational test below.
`consistencyKNumer_eq_round` certifies this against the source formula
whenever the standard deviation is rational. -/
def consistencyKNumer (v m : ℚ) : ℕ :=
  Nat.findGreatest (fun k => 4000000 * v ≤ (2001 - 2 * (k : ℚ)) ^ 2 * m ^ 2) 1000

/-- `calculateConsistency` (lines 223–236): `100` for fewer than 2 points,
otherwise `100 − CV×100` clamped to `[0,100]` and rounded to 1 decimal,
where `CV = sd / mean` if `mean > 0` and `0` otherwise. -/
def calculateConsistency (avgPoints : List ℚ) : ℚ :=
  if avgPoints.length < 2 then 100
  else
    let mean := listMean avgPoints
    let variance := listVariance avgPoints
    if 0 < mean then (consistencyKNumer variance mean : ℚ) / 10
    else 100

/-- Summary returned by `generateSummary`. -/
structure TeamSummary where
  totalSessions : ℕ
  overallAverage : ℚ
  highestAverage : ℚ
  lowestAverage : ℚ
  totalAthletesTracked : ℕ
  averageAthletesPerSession : ℚ
  totalPointsScored : ℚ
  consistencyScore : ℚ
  deriving Repr, DecidableEq

/-- `generateSummary` (lines 197–216): `null` on an empty stats list. -/
def generateSummary (sessionStats : List SessionStat) : Option TeamSummary :=
  if sessionStats.isEmpty then none
  else
    let avgPoints := sessionStats.map (·.avgPointsPerPlayer)
    let totalAthletes := (sessionStats.map (·.participatingAthletes)).sum
    let totalPoints := (sessionStats.map (·.totalPoints)).sum
    some
      { totalSessions := sessionStats.length
        overallAverage := round2 (avgPoints.sum / avgPoints.length)
        highestAverage := listMax avgPoints
        lowestAverage := listMin avgPoints
        totalAthletesTracked := totalAthletes
        averageAthletesPerSession := round1 ((totalAthletes : ℚ) / sessionStats.length)
        totalPointsScored := totalPoints
        consistencyScore := calculateConsistency avgPoints }

/-- JS `!sessionDate` fallback (lines 143–146): keep the session's own
date when present, otherwise use the supplied fallback. -/
def dateOr (a b : Option ℤ) : Option ℤ :=
  match a with
  | none => b
  | some d => some d

/-- Per-session body of `calculateTeamPerformanceTrend` (lines 128–181):
filter the records to this session, fall back to the first record's date,
count and sum over participating records, and emit a stat only when at
least one record participates. -/
def teamStatFor (athleteSessionData : List AthleteRecord) (session : TrainingSession) :
    Option SessionStat :=
  let sessionAthletes := athleteSessionData.filter (fun a => a.sessionId == session.id)
  if sessionAthletes.isEmpty then none
  else
    let sessionDate := dateOr session.sessionDate (sessionAthletes.head?.bind (·.sessionDate))
    let participating := sessionAthletes.filter (fun a => participatesB a.attendance)
    let totalPoints := (participating.map (fun a => a.points.getD 0)).sum
    if 0 < participating.length then
      some
        { sessionId := session.id
          sessionName := jsOr session.sessionName "Training Session"
          sessionDate := sessionDate
          totalPoints := totalPoints
          participatingAthletes := participating.length
          avgPointsPerPlayer := round2 (totalPoints / participating.length) }
    else none

/-- Comparator of the final `sessionStats.sort` (ascending by date). -/
def statDateLe (a b : SessionStat) : Prop :=
  a.sessionDate.getD 0 ≤ b.sessionDate.getD 0

instance : DecidableRel statDateLe := fun a b =>
  inferInstanceAs (Decidable (a.sessionDate.getD 0 ≤ b.sessionDate.getD 0))

instance : IsTotal SessionStat statDateLe :=
  ⟨fun a b => le_total (a.sessionDate.getD 0) (b.sessionDate.getD 0)⟩

instance : IsTrans SessionStat statDateLe := ⟨fun _ _ _ h h2 => le_trans h h2⟩

/-- Result of `calculateTeamPerformanceTrend`. -/
structure TeamTrendResult where
  sessionStats : List SessionStat
  summary : Option TeamSummary
  deriving Repr, DecidableEq

/-- `calculateTeamPerformanceTrend` (lines 122–190). -/
def calculateTeamPerformanceTrend (trainingSessions : List TrainingSession)
    (athleteSessionData : List AthleteRecord) : TeamTrendResult :=
  let sessionStats := trainingSessions.filterMap (teamStatFor athleteSessionData)
  let sorted := sessionStats.insertionSort statDateLe
  { sessionStats := sorted
    summary := generateSummary sorted }

/-- One entry of a player's retained session history
(`playerStats[playerId].sessions.push(...)`, lines 271–277; the raw
`sessionName` and `attendance` values are stored, not the defaults). -/
structure PlayerSession where
  sessionId : ℕ
  sessionName : Option String
  sessionDate : Option ℤ
  points : ℚ
  attendance : Option String
  deriving Repr, DecidableEq

/-- Derived `PlayerStat`. -/
structure PlayerStat where
  playerId : ℕ
  playerName : String
  totalPoints : ℚ
  sessionsParticipated : ℕ
  averagePoints : ℚ
  sessions : List PlayerSession
  deriving Repr, DecidableEq

/-- Summary returned by `generatePlayerSummary`. -/
structure PlayerSummary where
  totalPlayers : ℕ
  highestAverage : ℚ
  lowestAverage : ℚ
  overallAverage : ℚ
  topPerformer : PlayerStat
  totalPointsAllPlayers : ℚ
  averageSessionsPerPlayer : ℚ
  performanceSpread : ℚ
  deriving Repr, DecidableEq

/-- `generatePlayerSummary` (lines 313–332): `null` on an empty list;
`topPerformer` is the head of the (already sorted) list. -/
def generatePlayerSummary (playerAverages : List PlayerStat) : Option PlayerSummary :=
  match playerAverages with
  | [] => none
  | top :: _ =>
    let avgPoints := playerAverages.map (·.averagePoints)
    let totalSessions := (playerAverages.map (·.sessionsParticipated)).sum
    let totalPoints := (playerAverages.map (·.totalPoints)).sum
    some
      { totalPlayers := playerAverages.length
        highestAverage := listMax avgPoints
        lowestAverage := listMin avgPoints
        overallAverage := round2 (avgPoints.sum / avgPoints.length)
        topPerformer := top
        totalPointsAllPlayers := totalPoints
        averageSessionsPerPlayer := round1 ((totalSessions : ℚ) / playerAverages.length)
        performanceSpread := round2 (listMax avgPoints - listMin avgPoints) }

/-- The `PlayerStat` accumulated for one `athleteId` over the participating
records (the body of the `forEach`/`map` of lines 250–297, regrouped:
the JS folds record-by-record into an object keyed by `athleteId`; here the
same per-player lists are obtained by filtering the participating records
to one id).  `playerName` is fixed by the first record creating the entry;
the `sessionsParticipated > 0` guard of line 283 is the `if` below. -/
def playerNameFor (firstRecord : Option AthleteRecord) (pid : ℕ) : String :=
  match firstRecord with
  | none => "Player " ++ toString pid
  | some r => jsOr r.athleteName ("Player " ++ toString pid)

def playerStatFor (participatingRecords : List AthleteRecord) (pid : ℕ) : PlayerStat :=
  let mine := participatingRecords.filter (fun r => r.athleteId == pid)
  let playerName := playerNameFor mine.head? pid
  let totalPoints := (mine.map (fun r => r.points.getD 0)).sum
  let cnt := mine.length
  let avgPoints := if 0 < cnt then totalPoints / (cnt : ℚ) else 0
  { playerId := pid
    playerName := playerName
    totalPoints := totalPoints
    sessionsParticipated := cnt
    averagePoints := round2 avgPoints
    sessions := mine.map (fun r =>
      { sessionId := r.sessionId
        sessionName := r.sessionName
        sessionDate := r.sessionDate
        points := r.points.getD 0
        attendance := r.attendance }) }

/-- Comparator of `playerAverages.sort((a, b) => b.averagePoints -
a.averagePoints)` (descending by average). -/
def avgGe (a b : PlayerStat) : Prop := b.averagePoints ≤ a.averagePoints

instance : DecidableRel avgGe := fun a b =>
  inferInstanceAs (Decidable (b.averagePoints ≤ a.averagePoints))

instance : IsTotal PlayerStat avgGe :=
  ⟨fun a b => (le_total b.averagePoints a.averagePoints).imp id id⟩

instance : IsTrans PlayerStat avgGe := ⟨fun _ _ _ h h2 => le_trans h2 h⟩

/-- Result of `calculatePlayerAveragePoints`. -/
structure PlayerResult where
  playerStats : List PlayerStat
  summary : Option PlayerSummary
  deriving Repr, DecidableEq

/-- `calculatePlayerAveragePoints` (lines 244–306).  Records failing the
participation test are never grouped.  Modelling note: `Object.values` of
the JS accumulator enumerates numeric keys in ascending order; here players
are enumerated in first-appearance order instead.  The final descending
sort makes the two differ only in the relative order of players with equal
`averagePoints`, on which no stated property depends.  The unused
`trainingSessions` parameter is kept for interface symmetry. -/
def calculatePlayerAveragePoints (trainingSessions : List TrainingSession)
    (athleteSessionData : List AthleteRecord) : PlayerResult :=
  let _ := trainingSessions
  let participatingRecords :=
    athleteSessionData.filter (fun r => participatesB r.attendance)
  let ids := (participatingRecords.map (·.athleteId)).dedup
  let playerAverages := ids.map (playerStatFor participatingRecords)
  let sorted := playerAverages.insertionSort avgGe
  { playerStats := sorted
    summary := generatePlayerSummary sorted }

/-- One row of `sessionMetrics` in `calculateAthletePerformanceMetrics`
(lines 487–500): every numeric field independently defaulted to 0. -/
structure AthleteMetric where
  sessionId : ℕ
  sessionName : String
  sessionDate : Option ℤ
  points : ℚ
  rebounds : ℚ
  assists : ℚ
  turnovers : ℚ
  fouls : ℚ
  rpe : ℚ
  attendance : String
  deriving Repr, DecidableEq

/-- Per-metric totals (also reused for the per-metric averages). -/
structure MetricTotals where
  points : ℚ
  rebounds : ℚ
  assists : ℚ
  turnovers : ℚ
  fouls : ℚ
  rpe : ℚ
  deriving Repr, DecidableEq

/-- `bestPerformance` / `worstPerformance` entries. -/
structure PerfRef where
  session : String
  points : ℚ
  date : Option ℤ
  deriving Repr, DecidableEq

/-- Summary returned by `generateAthletePerformanceSummary`. -/
structure AthleteSummary where
  totalSessions : ℕ
  averages : MetricTotals
  totals : MetricTotals
  bestPerformance : PerfRef
  worstPerformance : PerfRef
  consistencyPoints : ℚ
  consistencyRebounds : ℚ
  consistencyAssists : ℚ
  deriving Repr, DecidableEq

/-- `generateAthletePerformanceSummary` (lines 515–566).  The best/worst
reductions start from the first row and keep the first max/min found
(strict comparisons in the source). -/
def generateAthletePerformanceSummary (sessionMetrics : List AthleteMetric) :
    Option AthleteSummary :=
  match sessionMetrics with
  | [] => none
  | first :: rest =>
    let totals := sessionMetrics.foldl
      (fun acc s =>
        { points := acc.points + s.points
          rebounds := acc.rebounds + s.rebounds
          assists := acc.assists + s.assists
          turnovers := acc.turnovers + s.turnovers
          fouls := acc.fouls + s.fouls
          rpe := acc.rpe + s.rpe })
      { points := 0, rebounds := 0, assists := 0, turnovers := 0, fouls := 0, rpe := 0 }
    let sessionCount : ℚ := sessionMetrics.length
    let best := rest.foldl (fun b c => if b.points < c.points then c else b) first
    let worst := rest.foldl (fun w c => if c.points < w.points then c else w) first
    some
      { totalSessions := sessionMetrics.length
        averages :=
          { points := round2 (totals.points / sessionCount)
            rebounds := round2 (totals.rebounds / sessionCount)
            assists := round2 (totals.assists / sessionCount)
            turnovers := round2 (totals.turnovers / sessionCount)
            fouls := round2 (totals.fouls / sessionCount)
            rpe := round2 (totals.rpe / sessionCount) }
        totals := totals
        bestPerformance :=
          { session := best.sessionName, points := best.points, date := best.sessionDate }
        worstPerformance :=
          { session := worst.sessionName, points := worst.points, date := worst.sessionDate }
        consistencyPoints := calculateConsistency (sessionMetrics.map (·.points))
        consistencyRebounds := calculateConsistency (sessionMetrics.map (·.rebounds))
        consistencyAssists := calculateConsistency (sessionMetrics.map (·.assists)) }

/-- Comparator of the date sort in `calculateAthletePerformanceMetrics`. -/
def recordDateLe (a b : AthleteRecord) : Prop :=
  a.sessionDate.getD 0 ≤ b.sessionDate.getD 0

instance : DecidableRel recordDateLe := fun a b =>
  inferInstanceAs (Decidable (a.sessionDate.getD 0 ≤ b.sessionDate.getD 0))

instance : IsTotal AthleteRecord recordDateLe :=
  ⟨fun a b => le_total (a.sessionDate.getD 0) (b.sessionDate.getD 0)⟩

instance : IsTrans AthleteRecord recordDateLe := ⟨fun _ _ _ h h2 => le_trans h h2⟩

/-- Result of `calculateAthletePerformanceMetrics`. -/
structure AthleteMetricsResult where
  sessionMetrics : List AthleteMetric
  summary : Option AthleteSummary
  deriving Repr, DecidableEq

/-- `calculateAthletePerformanceMetrics` (lines 471–508): empty input short
circuits; otherwise filter to participating records, sort ascending by
date, map to per-session metric rows, and summarise. -/
def calculateAthletePerformanceMetrics (athleteSessionData : List AthleteRecord) :
    AthleteMetricsResult :=
  if athleteSessionData.isEmpty then { sessionMetrics := [], summary := none }
  else
    let sortedSessions :=
      (athleteSessionData.filter (fun s => participatesB s.attendance)).insertionSort
        recordDateLe
    let sessionMetrics := sortedSessions.map (fun s =>
      { sessionId := s.sessionId
        sessionName := jsOr s.sessionName "Training Session"
        sessionDate := s.sessionDate
        points := s.points.getD 0
        rebounds := s.rebounds.getD 0
        assists := s.assists.getD 0
        turnovers := s.turnovers.getD 0
        fouls := s.fouls.getD 0
        rpe := s.rpe.getD 0
        attendance := jsOr s.attendance "Present" })
    { sessionMetrics := sessionMetrics
      summary := generateAthletePerformanceSummary sessionMetrics }

/-- Y-axis configuration returned by `calculateYAxisRange`. -/
structure YAxisConfig where
  min : ℚ
  max : ℚ
  stepSize : ℚ
  deriving Repr, DecidableEq

/-- The step-size threshold chain of `calculateYAxisRange`
(lines 1248–1260). -/
def stepSizeFor (adjustedRange : ℚ) : ℚ :=
  if adjustedRange ≤ 5 then 1 / 2
  else if adjustedRange ≤ 10 then 1
  else if adjustedRange ≤ 25 then 2
  else if adjustedRange ≤ 50 then 5
  else 10

/-- `calculateYAxisRange` (lines 1232–1271): pad the data range by
`max(range * 0.1, 0.5)` on each side, clamp the padded minimum at 0,
choose a step size by thresholds on the padded range, and snap the bounds
outwards to step multiples. -/
def calculateYAxisRange (dataPoints : List ℚ) : YAxisConfig :=
  if dataPoints.isEmpty then { min := 0, max := 10, stepSize := 1 }
  else
    let minValue := listMin dataPoints
    let maxValue := listMax dataPoints
    let range := maxValue - minValue
    let padding := max (range * (1 / 10)) (1 / 2)
    let adjustedMin := max 0 (minValue - padding)
    let adjustedMax := maxValue + padding
    let adjustedRange := adjustedMax - adjustedMin
    let stepSize := stepSizeFor adjustedRange
    { min := (⌊adjustedMin / stepSize⌋ : ℚ) * stepSize
      max := (⌈adjustedMax / stepSize⌉ : ℚ) * stepSize
      stepSize := stepSize }

/-- `xValues` of `calculateTrendLine` (line 1282): the 0-based indices. -/
def xValues (dataPoints : List ℚ) : List ℚ :=
  (List.range dataPoints.length).map (fun (i : ℕ) => (i : ℚ))

/-- `sumX` of `calculateTrendLine` (line 1285). -/
def trendSumX (dataPoints : List ℚ) : ℚ := (xValues dataPoints).sum

/-- `sumY` of `calculateTrendLine` (line 1286). -/
def trendSumY (dataPoints : List ℚ) : ℚ := dataPoints.sum

/-- `sumXY` of `calculateTrendLine` (line 1287): the reduce iterates the
indices `i`, pairing `i` with `dataPoints[i]`. -/
def trendSumXY (dataPoints : List ℚ) : ℚ :=
  ((List.range dataPoints.length).map
    (fun (i : ℕ) => (i : ℚ) * dataPoints.getD i 0)).sum

/-- `sumXX` of `calculateTrendLine` (line 1288). -/
def trendSumXX (dataPoints : List ℚ) : ℚ :=
  ((xValues dataPoints).map (fun x => x * x)).sum

/-- `slope` of `calculateTrendLine` (line 1290). -/
def trendSlope (dataPoints : List ℚ) : ℚ :=
  ((dataPoints.length : ℚ) * trendSumXY dataPoints -
      trendSumX dataPoints * trendSumY dataPoints) /
    ((dataPoints.length : ℚ) * trendSumXX dataPoints -
      trendSumX dataPoints * trendSumX dataPoints)

/-- `intercept` of `calculateTrendLine` (line 1291). -/
def trendIntercept (dataPoints : List ℚ) : ℚ :=
  (trendSumY dataPoints - trendSlope dataPoints * trendSumX dataPoints) /
    (dataPoints.length : ℚ)

/-- `calculateTrendLine` (lines 1278–1295): ordinary least-squares fit of
the values against the 0-based index; fewer than 2 points are returned
unchanged. -/
def calculateTrendLine (dataPoints : List ℚ) : List ℚ :=
  if dataPoints.length < 2 then dataPoints
  else
    (xValues dataPoints).map
      (fun x => trendSlope dataPoints * x + trendIntercept dataPoints)

/-- `getMaxXTicks` (lines 1220–1225). -/
def getMaxXTicks (dataCount : ℕ) : ℕ :=
  if dataCount ≤ 10 then dataCount
  else if dataCount ≤ 20 then 10
  else if dataCount ≤ 50 then 8
  else 6

/-- The date-library operations `generateSmartLabels` and its grouping
helpers use.  Label rendering (`toLocaleDateString`) is locale-dependent
and the calendar arithmetic lives in the host `Date` object, so the
embedding is parametric in a date type `D` equipped with these operations;
every property proved about `generateSmartLabels` holds for all of them. -/
structure DateOps (D : Type) where
  shortLabel : D → String
  monthYearLabel : D → String
  getWeekStart : D → D
  isoDay : D → String
  monthKey : D → String

/-- Shared shape of `groupByWeek` / `groupByMonth` (lines 1152–1201): walk
the list, starting a new group whenever the key differs from the current
group's key; with an equality-based key this groups maximal runs of equal
keys, written here as a right fold. -/
def chunkByKey {D : Type} (key : D → String) : List D → List (List D) :=
  List.foldr
    (fun d groups =>
      match groups with
      | [] => [[d]]
      | g :: gs =>
        match g with
        | [] => [d] :: gs
        | d2 :: _ => if key d = key d2 then (d :: g) :: gs else [d] :: g :: gs)
    []

/-- `groupByWeek` (lines 1152–1173): key = ISO day of the Monday week
start. -/
def groupByWeek {D : Type} (ops : DateOps D) (parsedData : List D) : List (List D) :=
  chunkByKey (fun d => ops.isoDay (ops.getWeekStart d)) parsedData

/-- `groupByMonth` (lines 1180–1201): key = `year-month`. -/
def groupByMonth {D : Type} (ops : DateOps D) (parsedData : List D) : List (List D) :=
  chunkByKey (fun d => ops.monthKey d) parsedData

/-- The week branch of `generateSmartLabels` (lines 1092–1118): the first
session of a week gets a `Week of …` label, others an empty label; the
first session of every second week gets a tick at its running index. -/
def weekWalk {D : Type} (ops : DateOps D) :
    List (List D) → ℕ → ℕ → List String × List ℕ
  | [], _, _ => ([], [])
  | g :: gs, weekIndex, currentIndex =>
    let rest := weekWalk ops gs (weekIndex + 1) (currentIndex + g.length)
    let ls :=
      match g with
      | [] => ([] : List String)
      | d :: ds => ("Week of " ++ ops.shortLabel d) :: ds.map (fun _ => "")
    let ts :=
      if g.length ≠ 0 ∧ weekIndex % 2 = 0 then [currentIndex] else ([] : List ℕ)
    (ls ++ rest.1, ts ++ rest.2)

/-- The month branch of `generateSmartLabels` (lines 1119–1141): the first
session of a month gets a month label and a tick at its running index. -/
def monthWalk {D : Type} (ops : DateOps D) :
    List (List D) → ℕ → List String × List ℕ
  | [], _ => ([], [])
  | g :: gs, currentIndex =>
    let rest := monthWalk ops gs (currentIndex + g.length)
    let ls :=
      match g with
      | [] => ([] : List String)
      | d :: ds => ops.monthYearLabel d :: ds.map (fun _ => "")
    let ts := if g.length ≠ 0 then [currentIndex] else ([] : List ℕ)
    (ls ++ rest.1, ts ++ rest.2)

/-- `generateSmartLabels` (lines 1064–1145): label/tick strategy chosen by
data count — all points (≤10), every other point plus the last (≤20),
calendar weeks (≤50), calendar months (>50). -/
def generateSmartLabels {D : Type} (ops : DateOps D) (parsedData : List D) :
    List String × List ℕ :=
  let dataCount := parsedData.length
  if dataCount ≤ 10 then
    (parsedData.map (fun d => ops.shortLabel d), List.range dataCount)
  else if dataCount ≤ 20 then
    (parsedData.map (fun d => ops.shortLabel d),
      (List.range dataCount).filter (fun i => i % 2 = 0 || i = dataCount - 1))
  else if dataCount ≤ 50 then
    weekWalk ops (groupByWeek ops parsedData) 0 0
  else
    monthWalk ops (groupByMonth ops parsedData) 0

/-! ## Helper lemmas -/

theorem foldl_min_le_init (xs : List ℚ) (x : ℚ) : xs.foldl min x ≤ x := by
  induction xs generalizing x with
  | nil => exact le_refl x
  | cons y ys ih => exact le_trans (ih (min x y)) (min_le_left x y)

theorem foldl_min_le_mem (xs : List ℚ) (x v : ℚ) (hv : v ∈ xs) : xs.foldl min x ≤ v := by
  induction xs generalizing x with
  | nil => cases hv
  | cons y ys ih =>
    rcases List.mem_cons.mp hv with h | h
    · subst h
      exact le_trans (foldl_min_le_init ys (min x v)) (min_le_right x v)
    · exact ih (min x y) h

theorem listMin_le (l : List ℚ) (v : ℚ) (hv : v ∈ l) : listMin l ≤ v := by
  match l with
  | [] => cases hv
  | x :: xs =>
    rcases List.mem_cons.mp hv with h | h
    · subst h
      exact foldl_min_le_init xs v
    · exact foldl_min_le_mem xs x v h

theorem init_le_foldl_max (xs : List ℚ) (x : ℚ) : x ≤ xs.foldl max x := by
  induction xs generalizing x with
  | nil => exact le_refl x
  | cons y ys ih => exact le_trans (le_max_left x y) (ih (max x y))

theorem mem_le_foldl_max (xs : List ℚ) (x v : ℚ) (hv : v ∈ xs) : v ≤ xs.foldl max x := by
  induction xs generalizing x with
  | nil => cases hv
  | cons y ys ih =>
    rcases List.mem_cons.mp hv with h | h
    · subst h
      exact le_trans (le_max_right x v) (init_le_foldl_max ys (max x v))
    · exact ih (max x y) h

theorem le_listMax (l : List ℚ) (v : ℚ) (hv : v ∈ l) : v ≤ listMax l := by
  match l with
  | [] => cases hv
  | x :: xs =>
    rcases List.mem_cons.mp hv with h | h
    · subst h
      exact init_le_foldl_max xs v
    · exact mem_le_foldl_max xs x v h

theorem foldl_min_mem (xs : List ℚ) (x : ℚ) : xs.foldl min x = x ∨ xs.foldl min x ∈ xs := by
  induction xs generalizing x with
  | nil => exact Or.inl rfl
  | cons y ys ih =>
    rcases ih (min x y) with h | h
    · rcases min_choice x y with hm | hm
      · exact Or.inl (h.trans hm)
      · exact Or.inr (List.mem_cons.mpr (Or.inl (h.trans hm)))
    · exact Or.inr (List.mem_cons.mpr (Or.inr h))

theorem listMin_mem (l : List ℚ) (h : l ≠ []) : listMin l ∈ l := by
  match l with
  | [] => exact absurd rfl h
  | x :: xs =>
    rcases foldl_min_mem xs x with h2 | h2
    · exact List.mem_cons.mpr (Or.inl h2)
    · exact List.mem_cons.mpr (Or.inr h2)

theorem floor_mul_le (x s : ℚ) (hs : 0 < s) : (⌊x / s⌋ : ℚ) * s ≤ x := by
  have h1 : (⌊x / s⌋ : ℚ) ≤ x / s := Int.floor_le (x / s)
  calc (⌊x / s⌋ : ℚ) * s ≤ (x / s) * s := mul_le_mul_of_nonneg_right h1 (le_of_lt hs)
    _ = x := div_mul_cancel₀ x (ne_of_gt hs)

theorem le_ceil_mul (x s : ℚ) (hs : 0 < s) : x ≤ (⌈x / s⌉ : ℚ) * s := by
  have h1 : x / s ≤ (⌈x / s⌉ : ℚ) := Int.le_ceil (x / s)
  calc x = (x / s) * s := (div_mul_cancel₀ x (ne_of_gt hs)).symm
    _ ≤ (⌈x / s⌉ : ℚ) * s := mul_le_mul_of_nonneg_right h1 (le_of_lt hs)

theorem stepSizeFor_pos (r : ℚ) : 0 < stepSizeFor r := by
  unfold stepSizeFor
  split_ifs <;> norm_num

theorem isEmpty_false_of_ne_nil {α : Type} (l : List α) (h : l ≠ []) :
    l.isEmpty = false := by
  cases l with
  | nil => exact absurd rfl h
  | cons x xs => rfl

/-- Anatomy of a non-empty-input `calculateYAxisRange` result: the bounds
are the padded, clamped extrema snapped outwards to multiples of the
(positive) step size, with padding at least `1/2`. -/
theorem calculateYAxisRange_anatomy (l : List ℚ) (h : l ≠ []) :
    ∃ s padding : ℚ, 0 < s ∧ 1 / 2 ≤ padding ∧
      (calculateYAxisRange l).stepSize = s ∧
      (calculateYAxisRange l).min = (⌊max 0 (listMin l - padding) / s⌋ : ℚ) * s ∧
      (calculateYAxisRange l).max = (⌈(listMax l + padding) / s⌉ : ℚ) * s := by
  have hne : l.isEmpty = false := isEmpty_false_of_ne_nil l h
  refine ⟨stepSizeFor (listMax l + max ((listMax l - listMin l) * (1 / 10)) (1 / 2) -
      max 0 (listMin l - max ((listMax l - listMin l) * (1 / 10)) (1 / 2))),
    max ((listMax l - listMin l) * (1 / 10)) (1 / 2),
    stepSizeFor_pos _, le_max_right _ _, ?_, ?_, ?_⟩ <;>
    simp only [calculateYAxisRange, hne, Bool.false_eq_true, if_false]

/-! ## Claims about `calculateYAxisRange` (C3, C10) -/

/-- C10: for every non-empty input, the axis minimum returned by
`calculateYAxisRange` is at least 0 (the padded lower bound is clamped at 0
before being snapped down), so any negative input value lies strictly below
the returned minimum. -/
theorem yAxisMin_nonneg (l : List ℚ) (h : l ≠ []) :
    0 ≤ (calculateYAxisRange l).min ∧
    ∀ v ∈ l, v < 0 → v < (calculateYAxisRange l).min := by
  obtain ⟨s, padding, hs, _, _, hmin, _⟩ := calculateYAxisRange_anatomy l h
  have hdiv : (0 : ℚ) ≤ max 0 (listMin l - padding) / s :=
    div_nonneg (le_max_left _ _) hs.le
  have hfl : (0 : ℤ) ≤ ⌊max 0 (listMin l - padding) / s⌋ := Int.floor_nonneg.mpr hdiv
  have hflq : (0 : ℚ) ≤ (⌊max 0 (listMin l - padding) / s⌋ : ℚ) := by exact_mod_cast hfl
  have h0 : 0 ≤ (calculateYAxisRange l).min := by
    rw [hmin]
    exact mul_nonneg hflq hs.le
  exact ⟨h0, fun v _ hneg => lt_of_lt_of_le hneg h0⟩

/-- Witness for `yAxisMin_nonneg` at the input `[-5, 5]`. -/
theorem yAxisMin_nonneg_witness :
    0 ≤ (calculateYAxisRange [-5, 5]).min ∧
    ∀ v ∈ [(-5 : ℚ), 5], v < 0 → v < (calculateYAxisRange [-5, 5]).min :=
  yAxisMin_nonneg [-5, 5] (by simp)

/-- C3 (amended): for a non-empty input list all of whose values are
nonnegative, every value lies between the returned `min` and `max`; and for
every non-empty input, `max − min` is an integer multiple of `stepSize`.
(As stated over all inputs the containment fails for negative values, since
the lower bound is clamped at 0: see `yAxisRange_counterexample`.) -/
theorem yAxisRange_spec (l : List ℚ) (h : l ≠ []) :
    ((∀ v ∈ l, 0 ≤ v) → ∀ v ∈ l,
      (calculateYAxisRange l).min ≤ v ∧ v ≤ (calculateYAxisRange l).max) ∧
    ∃ k : ℤ, (calculateYAxisRange l).max - (calculateYAxisRange l).min =
      (k : ℚ) * (calculateYAxisRange l).stepSize := by
  obtain ⟨s, padding, hs, hpad, hstep, hmin, hmax⟩ := calculateYAxisRange_anatomy l h
  constructor
  · intro hnn v hv
    constructor
    · rw [hmin]
      have h1 : (⌊max 0 (listMin l - padding) / s⌋ : ℚ) * s ≤ max 0 (listMin l - padding) :=
        floor_mul_le _ s hs
      have h2 : max 0 (listMin l - padding) ≤ listMin l := by
        apply max_le
        · exact hnn _ (listMin_mem l h)
        · linarith
      exact le_trans (le_trans h1 h2) (listMin_le l v hv)
    · rw [hmax]
      have h1 : listMax l + padding ≤ (⌈(listMax l + padding) / s⌉ : ℚ) * s :=
        le_ceil_mul _ s hs
      have h2 : v ≤ listMax l := le_listMax l v hv
      linarith
  · refine ⟨⌈(listMax l + padding) / s⌉ - ⌊max 0 (listMin l - padding) / s⌋, ?_⟩
    rw [hmin, hmax, hstep]
    push_cast
    ring

/-- Witness for `yAxisRange_spec` at the input `[1, 3]`. -/
theorem yAxisRange_spec_witness :
    ((∀ v ∈ [(1 : ℚ), 3], 0 ≤ v) → ∀ v ∈ [(1 : ℚ), 3],
      (calculateYAxisRange [1, 3]).min ≤ v ∧ v ≤ (calculateYAxisRange [1, 3]).max) ∧
    ∃ k : ℤ, (calculateYAxisRange [1, 3]).max - (calculateYAxisRange [1, 3]).min =
      (k : ℚ) * (calculateYAxisRange [1, 3]).stepSize :=
  yAxisRange_spec [1, 3] (by simp)

/-- C3 counterexample: on the input `[-5, 5]` the returned axis minimum is
0, which does not lie below the data point `-5`; the claimed containment
`min ≤ v` for every input value is false. -/
theorem yAxisRange_counterexample :
    ¬ ∀ v ∈ [(-5 : ℚ), 5], (calculateYAxisRange [-5, 5]).min ≤ v ∧
      v ≤ (calculateYAxisRange [-5, 5]).max := by
  intro hall
  have h1 := (hall (-5) (by simp)).1
  have hmin : (calculateYAxisRange [-5, 5]).min = 0 := by
    norm_num [calculateYAxisRange, listMin, listMax, stepSizeFor, List.foldl]
  rw [hmin] at h1
  linarith

/-! ## Claim C7: empty inputs -/

/-- C7: on empty input lists all three calculators return an empty detail
array and a `null` summary (and, being total functions, raise nothing). -/
theorem emptyInputs_spec :
    (calculateTeamPerformanceTrend [] []).sessionStats = [] ∧
    (calculateTeamPerformanceTrend [] []).summary = none ∧
    (calculatePlayerAveragePoints [] []).playerStats = [] ∧
    (calculatePlayerAveragePoints [] []).summary = none ∧
    (calculateAthletePerformanceMetrics []).sessionMetrics = [] ∧
    (calculateAthletePerformanceMetrics []).summary = none :=
  ⟨rfl, rfl, rfl, rfl, rfl, rfl⟩

/-! ## Claims about `calculateConsistency` (C2) -/

/-- For `k ≤ 1000` and positive mean `m`, the squared test inside
`consistencyKNumer` at standard deviation `w` is exactly the linear
condition `k ≤ 1000.5 − 1000·w/m`. -/
theorem consistencyP_iff (w m : ℚ) (hm : 0 < m) (hw : 0 ≤ w) (k : ℕ) (hk : k ≤ 1000) :
    (4000000 * w ^ 2 ≤ (2001 - 2 * (k : ℚ)) ^ 2 * m ^ 2 ↔
      (k : ℚ) ≤ 2001 / 2 - 1000 * w / m) := by
  have hkq : (k : ℚ) ≤ 1000 := by exact_mod_cast hk
  have hpos : (0 : ℚ) < 2001 - 2 * k := by linarith
  have e1 : (4000000 : ℚ) * w ^ 2 = (2000 * w) ^ 2 := by ring
  have e2 : (2001 - 2 * (k : ℚ)) ^ 2 * m ^ 2 = ((2001 - 2 * k) * m) ^ 2 := by ring
  rw [e1, e2, pow_le_pow_iff_left₀ (by positivity) (by positivity) two_ne_zero]
  constructor
  · intro h
    have h3 : 1000 * w / m ≤ 2001 / 2 - k := by
      rw [div_le_iff₀ hm]
      nlinarith
    linarith
  · intro h
    have h3 : 1000 * w / m ≤ 2001 / 2 - k := by linarith
    have h2 : 1000 * w ≤ (2001 / 2 - k) * m := (div_le_iff₀ hm).mp h3
    nlinarith

/-- Certification of the `consistencyKNumer` encoding against the source
formula: whenever the standard deviation `w` is itself rational, the
encoded value coincides with
`Math.round(Math.max(0, Math.min(100, (1 − w/m)·100)) · 10) / 10`. -/
theorem consistencyKNumer_eq_round (w m : ℚ) (hm : 0 < m) (hw : 0 ≤ w) :
    (consistencyKNumer (w ^ 2) m : ℚ) / 10 =
      round1 (max 0 (min 100 ((1 - w / m) * 100))) := by
  set s : ℚ := 1000 * w / m with hs
  have hs0 : 0 ≤ s := by positivity
  have hmin : min 100 ((1 - w / m) * 100) = 100 - s / 10 := by
    have he : (1 - w / m) * 100 = 100 - s / 10 := by
      rw [hs]
      ring
    rw [he, min_eq_right]
    linarith
  have hmax10 : max 0 (100 - s / 10) * 10 = max 0 (1000 - s) := by
    rw [max_mul_of_nonneg _ _ (by norm_num : (0 : ℚ) ≤ 10)]
    norm_num
    ring_nf
  rw [hmin, round1, hmax10]
  have hxpos : (0 : ℚ) ≤ max 0 (1000 - s) + 1 / 2 := by
    have := le_max_left (0 : ℚ) (1000 - s)
    linarith
  set r : ℤ := ⌊max 0 (1000 - s) + 1 / 2⌋ with hr
  have hr0 : 0 ≤ r := Int.floor_nonneg.mpr hxpos
  have hr1000 : r ≤ 1000 := by
    have hlt : max 0 (1000 - s) + 1 / 2 < 1001 := by
      have h1 : max 0 (1000 - s) ≤ 1000 := max_le (by norm_num) (by linarith)
      linarith
    have := Int.floor_lt.mpr (by exact_mod_cast hlt : max 0 (1000 - s) + 1 / 2 < ((1001 : ℤ) : ℚ))
    omega
  have hk : consistencyKNumer (w ^ 2) m = r.toNat := by
    rw [consistencyKNumer, Nat.findGreatest_eq_iff]
    refine ⟨by omega, ?_, ?_⟩
    · intro hne
      rw [consistencyP_iff w m hm hw r.toNat (by omega)]
      have hr1 : (1 : ℤ) ≤ r := by omega
      have hle : (r : ℚ) ≤ max 0 (1000 - s) + 1 / 2 := Int.floor_le _
      have hr1q : (1 : ℚ) ≤ (r : ℚ) := by exact_mod_cast hr1
      have hmaxpos : (0 : ℚ) < max 0 (1000 - s) := by linarith
      have hmx : max 0 (1000 - s) = 1000 - s := by
        rcases le_total 0 (1000 - s) with hc | hc
        · exact max_eq_right hc
        · rw [max_eq_left hc] at hmaxpos
          linarith
      rw [hmx] at hle
      have hcast : ((r.toNat : ℕ) : ℚ) = (r : ℚ) := by
        exact_mod_cast congrArg Int.cast (Int.toNat_of_nonneg hr0)
      rw [hcast]
      linarith
    · intro n hn hn1000
      rw [consistencyP_iff w m hm hw n hn1000]
      have hrn : r + 1 ≤ (n : ℤ) := by omega
      have hrnq : (r : ℚ) + 1 ≤ (n : ℚ) := by exact_mod_cast hrn
      have hlt := Int.lt_floor_add_one (max 0 (1000 - s) + 1 / 2)
      have hmr : (1000 - s) ≤ max 0 (1000 - s) := le_max_right _ _
      intro hcon
      rw [← hr] at hlt
      linarith
  rw [hk]
  have hcast : ((r.toNat : ℕ) : ℚ) = (r : ℚ) := by
    exact_mod_cast congrArg Int.cast (Int.toNat_of_nonneg hr0)
  rw [hcast]

theorem listMean_all10 : listMean [10, 10, 10] = 10 := by
  norm_num [listMean]

theorem listVariance_all10 : listVariance [10, 10, 10] = 0 := by
  norm_num [listVariance, listMean]

theorem listMean_0_20 : listMean [0, 20] = 10 := by
  norm_num [listMean]

theorem listVariance_0_20 : listVariance [0, 20] = 100 := by
  norm_num [listVariance, listMean]

theorem consistency_example_all10 : calculateConsistency [10, 10, 10] = 100 := by
  rw [calculateConsistency]
  norm_num [listMean_all10, listVariance_all10]
  have h := consistencyKNumer_eq_round 0 10 (by norm_num) (by norm_num)
  norm_num [round1] at h
  rw [h]

theorem consistency_example_0_20 : calculateConsistency [0, 20] = 0 := by
  rw [calculateConsistency]
  norm_num [listMean_0_20, listVariance_0_20]
  have h := consistencyKNumer_eq_round 10 10 (by norm_num) (by norm_num)
  norm_num [round1] at h
  rw [h]

theorem consistencyKNumer_le_1000 (v m : ℚ) : consistencyKNumer v m ≤ 1000 :=
  Nat.findGreatest_le 1000

/-- C2 (amended): `calculateConsistency` always returns a value in
`[0, 100]`; it returns exactly 100 for fewer than 2 data points; and for 2
or more data points it returns 100 exactly when the mean is nonpositive or
the population variance is at most `(mean/2000)²` (equivalently, the
coefficient of variation is at most `0.0005` — this includes, but through
rounding is not limited to, all-equal lists; and via the nonpositive-mean
branch it also includes lists like `[0, 0]`, so "all equal with nonzero
mean" is neither necessary nor sufficient as stated: see
`calculateConsistency_counterexample`).  The examples `[10, 10, 10] → 100`
and `[0, 20] → 0` hold. -/
theorem calculateConsistency_spec (l : List ℚ) :
    0 ≤ calculateConsistency l ∧ calculateConsistency l ≤ 100 ∧
    (l.length < 2 → calculateConsistency l = 100) ∧
    (2 ≤ l.length → (calculateConsistency l = 100 ↔
      listMean l ≤ 0 ∨ 4000000 * listVariance l ≤ listMean l ^ 2)) ∧
    calculateConsistency [10, 10, 10] = 100 ∧
    calculateConsistency [0, 20] = 0 := by
  have hkle : ∀ v m : ℚ, (consistencyKNumer v m : ℚ) ≤ 1000 := by
    intro v m
    exact_mod_cast consistencyKNumer_le_1000 v m
  refine ⟨?_, ?_, ?_, ?_, consistency_example_all10, consistency_example_0_20⟩
  · simp only [calculateConsistency]
    split_ifs
    · norm_num
    · positivity
    · norm_num
  · simp only [calculateConsistency]
    split_ifs
    · norm_num
    · have := hkle (listVariance l) (listMean l)
      linarith
    · norm_num
  · intro h
    simp only [calculateConsistency]
    rw [if_pos h]
  · intro h
    have hnlt : ¬ (l.length < 2) := by omega
    simp only [calculateConsistency]
    rw [if_neg hnlt]
    by_cases hmean : 0 < listMean l
    · rw [if_pos hmean]
      constructor
      · intro heq
        right
        have hkq : (consistencyKNumer (listVariance l) (listMean l) : ℚ) = 1000 := by
          linarith
        have hk : consistencyKNumer (listVariance l) (listMean l) = 1000 := by
          exact_mod_cast hkq
        rw [consistencyKNumer] at hk
        have hP := (Nat.findGreatest_eq_iff.mp hk).2.1 (by norm_num)
        push_cast at hP
        nlinarith
      · intro hcase
        have hP1000 : 4000000 * listVariance l ≤
            (2001 - 2 * ((1000 : ℕ) : ℚ)) ^ 2 * listMean l ^ 2 := by
          rcases hcase with hm | hv
          · linarith
          · push_cast
            nlinarith
        have h1 : 1000 ≤ consistencyKNumer (listVariance l) (listMean l) :=
          Nat.le_findGreatest (le_refl 1000) hP1000
        have h2 : consistencyKNumer (listVariance l) (listMean l) ≤ 1000 :=
          consistencyKNumer_le_1000 _ _
        have heq : consistencyKNumer (listVariance l) (listMean l) = 1000 :=
          le_antisymm h2 h1
        rw [heq]
        norm_num
    · rw [if_neg hmean]
      constructor
      · intro _
        exact Or.inl (le_of_not_lt hmean)
      · intro _
        rfl

/-- C2 counterexample: on `[0, 0]` (two equal values with mean 0) the code
returns 100, contradicting the claim that 100 is returned exactly for
all-equal values with nonzero mean. -/
theorem calculateConsistency_counterexample :
    calculateConsistency [0, 0] = 100 ∧ listMean [0, 0] = 0 := by
  constructor
  · rw [calculateConsistency]
    norm_num [listMean]
  · norm_num [listMean]

/-- Witness for `calculateConsistency_spec` at the input `[0, 20]`. -/
theorem calculateConsistency_spec_witness :
    0 ≤ calculateConsistency [0, 20] ∧ calculateConsistency [0, 20] ≤ 100 ∧
    (([0, 20] : List ℚ).length < 2 → calculateConsistency [0, 20] = 100) ∧
    (2 ≤ ([0, 20] : List ℚ).length → (calculateConsistency [0, 20] = 100 ↔
      listMean [0, 20] ≤ 0 ∨ 4000000 * listVariance [0, 20] ≤ listMean [0, 20] ^ 2)) ∧
    calculateConsistency [10, 10, 10] = 100 ∧
    calculateConsistency [0, 20] = 0 :=
  calculateConsistency_spec [0, 20]

/-! ## Claim C5: `calculateTrendLine` -/

theorem listSumRange (f : ℕ → ℚ) (n : ℕ) :
    ((List.range n).map f).sum = ∑ i in Finset.range n, f i := by
  induction n with
  | zero => simp
  | succ n ih =>
    rw [List.range_succ, List.map_append, List.sum_append, Finset.sum_range_succ, ih]
    simp

theorem listSum_eq_sum_getD (l : List ℚ) :
    l.sum = ∑ i in Finset.range l.length, l.getD i 0 := by
  induction l with
  | nil => simp
  | cons x xs ih =>
    rw [List.sum_cons, List.length_cons, Finset.sum_range_succ']
    simp only [List.getD_cons_succ, List.getD_cons_zero]
    rw [← ih]
    ring

theorem sum_range_cast (n : ℕ) :
    ∑ i in Finset.range n, (i : ℚ) = (n : ℚ) * ((n : ℚ) - 1) / 2 := by
  induction n with
  | zero => simp
  | succ n ih =>
    rw [Finset.sum_range_succ, ih]
    push_cast
    ring

theorem sum_range_sq_cast (n : ℕ) :
    ∑ i in Finset.range n, (i : ℚ) ^ 2 =
      (n : ℚ) * ((n : ℚ) - 1) * (2 * (n : ℚ) - 1) / 6 := by
  induction n with
  | zero => simp
  | succ n ih =>
    rw [Finset.sum_range_succ, ih]
    push_cast
    ring

theorem trendSumX_eq (l : List ℚ) :
    trendSumX l = ∑ i in Finset.range l.length, (i : ℚ) := by
  rw [trendSumX, xValues, listSumRange]

theorem trendSumXX_eq (l : List ℚ) :
    trendSumXX l = ∑ i in Finset.range l.length, (i : ℚ) ^ 2 := by
  rw [trendSumXX, xValues, List.map_map, listSumRange]
  refine Finset.sum_congr rfl (fun i _ => ?_)
  simp [sq]

theorem trendSumY_eq (l : List ℚ) :
    trendSumY l = ∑ i in Finset.range l.length, l.getD i 0 :=
  listSum_eq_sum_getD l

theorem trendSumXY_eq (l : List ℚ) :
    trendSumXY l = ∑ i in Finset.range l.length, (i : ℚ) * l.getD i 0 := by
  rw [trendSumXY, listSumRange]

/-- The least-squares denominator `n·ΣX² − (ΣX)²` equals
`n²(n−1)(n+1)/12`, hence is positive for `n ≥ 2`. -/
theorem trendDenom_pos (l : List ℚ) (h : 2 ≤ l.length) :
    0 < (l.length : ℚ) * trendSumXX l - trendSumX l * trendSumX l := by
  rw [trendSumXX_eq, trendSumX_eq, sum_range_cast, sum_range_sq_cast]
  have hn : (2 : ℚ) ≤ (l.length : ℚ) := by exact_mod_cast h
  set N : ℚ := (l.length : ℚ) with hN
  have he : N * (N * (N - 1) * (2 * N - 1) / 6) - N * (N - 1) / 2 * (N * (N - 1) / 2) =
      N ^ 2 * (N - 1) * (N + 1) / 12 := by ring
  rw [he]
  have h1 : 0 < N ^ 2 := by positivity
  have h2 : 0 < N - 1 := by linarith
  have h3 : 0 < N + 1 := by linarith
  exact div_pos (mul_pos (mul_pos h1 h2) h3) (by norm_num)

/-- Sum of squared errors of the affine fit `i ↦ a·i + b` on the list. -/
def sse (l : List ℚ) (a b : ℚ) : ℚ :=
  ∑ i in Finset.range l.length, (l.getD i 0 - (a * i + b)) ^ 2

/-- The code's slope and intercept satisfy the two least-squares normal
equations. -/
theorem trend_normal_equations (l : List ℚ) (h : 2 ≤ l.length) :
    (∑ i in Finset.range l.length,
      (l.getD i 0 - (trendSlope l * i + trendIntercept l))) = 0 ∧
    (∑ i in Finset.range l.length,
      (i : ℚ) * (l.getD i 0 - (trendSlope l * i + trendIntercept l))) = 0 := by
  have hn : (l.length : ℚ) ≠ 0 := by
    have h0 : (0 : ℚ) < (l.length : ℚ) := by exact_mod_cast (by omega : 0 < l.length)
    linarith
  have hden := trendDenom_pos l h
  have hden0 : (l.length : ℚ) * trendSumXX l - trendSumX l * trendSumX l ≠ 0 :=
    ne_of_gt hden
  have hslope : trendSlope l * ((l.length : ℚ) * trendSumXX l - trendSumX l * trendSumX l) =
      (l.length : ℚ) * trendSumXY l - trendSumX l * trendSumY l := by
    rw [trendSlope, div_mul_cancel₀ _ hden0]
  have hinter : trendIntercept l * (l.length : ℚ) =
      trendSumY l - trendSlope l * trendSumX l := by
    rw [trendIntercept, div_mul_cancel₀ _ hn]
  have he1 : ∑ i in Finset.range l.length,
      (l.getD i 0 - (trendSlope l * i + trendIntercept l)) =
      trendSumY l - (trendSlope l * trendSumX l +
        (l.length : ℚ) * trendIntercept l) := by
    rw [Finset.sum_sub_distrib, Finset.sum_add_distrib, ← Finset.mul_sum,
      Finset.sum_const, Finset.card_range, ← trendSumX_eq, ← trendSumY_eq]
    ring
  have hfirst : ∑ i in Finset.range l.length,
      (l.getD i 0 - (trendSlope l * i + trendIntercept l)) = 0 := by
    rw [he1]
    linarith [hinter]
  refine ⟨hfirst, ?_⟩
  have he2 : ∑ i in Finset.range l.length,
      (i : ℚ) * (l.getD i 0 - (trendSlope l * i + trendIntercept l)) =
      trendSumXY l - (trendSlope l * trendSumXX l +
        trendIntercept l * trendSumX l) := by
    have hsplit : ∀ i ∈ Finset.range l.length,
        (i : ℚ) * (l.getD i 0 - (trendSlope l * i + trendIntercept l)) =
        (i : ℚ) * l.getD i 0 - (trendSlope l * (i : ℚ) ^ 2 +
          trendIntercept l * (i : ℚ)) := by
      intro i _
      ring
    rw [Finset.sum_congr rfl hsplit, Finset.sum_sub_distrib, Finset.sum_add_distrib,
      ← Finset.mul_sum, ← Finset.mul_sum, ← trendSumXY_eq, ← trendSumXX_eq,
      ← trendSumX_eq]
  rw [he2]
  have hmain : (l.length : ℚ) * (trendSumXY l - (trendSlope l * trendSumXX l +
      trendIntercept l * trendSumX l)) = 0 := by
    have expand : (l.length : ℚ) * (trendSumXY l - (trendSlope l * trendSumXX l +
        trendIntercept l * trendSumX l)) =
        ((l.length : ℚ) * trendSumXY l - trendSumX l * trendSumY l) -
          trendSlope l * ((l.length : ℚ) * trendSumXX l -
            trendSumX l * trendSumX l) +
          (trendSumX l * trendSumY l -
            (trendIntercept l * (l.length : ℚ)) * trendSumX l -
            trendSlope l * trendSumX l * trendSumX l) := by
      ring
    rw [expand, hslope, hinter]
    ring
  rcases mul_eq_zero.mp hmain with hc | hc
  · exact absurd hc hn
  · exact hc

/-- C5: `calculateTrendLine` preserves length; below 2 points it returns
the input unchanged; at exactly 2 points the fitted values equal the two
inputs; and for 2 or more points the output is an affine function of the
0-based index minimizing the sum of squared errors over all affine
functions (the ordinary least-squares fit), stated over exact rational
arithmetic. -/
theorem calculateTrendLine_spec (l : List ℚ) :
    (calculateTrendLine l).length = l.length ∧
    (l.length < 2 → calculateTrendLine l = l) ∧
    (l.length = 2 → calculateTrendLine l = l) ∧
    (2 ≤ l.length → ∃ a b : ℚ,
      calculateTrendLine l =
        (List.range l.length).map (fun (i : ℕ) => a * (i : ℚ) + b) ∧
      ∀ a2 b2 : ℚ, sse l a b ≤ sse l a2 b2) := by
  refine ⟨?_, ?_, ?_, ?_⟩
  · rw [calculateTrendLine]
    split_ifs
    · rfl
    · simp [xValues]
  · intro h
    rw [calculateTrendLine, if_pos h]
  · intro h
    obtain ⟨p, q, rfl⟩ := List.length_eq_two.mp h
    rw [calculateTrendLine]
    norm_num [xValues, trendSlope, trendIntercept, trendSumX, trendSumY, trendSumXY,
      trendSumXX, List.range_succ]
    constructor <;> ring
  · intro h
    have hnlt : ¬ l.length < 2 := by omega
    refine ⟨trendSlope l, trendIntercept l, ?_, ?_⟩
    · rw [calculateTrendLine, if_neg hnlt, xValues, List.map_map]
      rfl
    · intro a2 b2
      obtain ⟨hne1, hne2⟩ := trend_normal_equations l h
      have expand : ∀ i ∈ Finset.range l.length,
          (l.getD i 0 - (a2 * i + b2)) ^ 2 =
          ((l.getD i 0 - (trendSlope l * i + trendIntercept l)) ^ 2 +
            (2 * (trendSlope l - a2)) *
              ((i : ℚ) * (l.getD i 0 - (trendSlope l * i + trendIntercept l)))) +
          ((2 * (trendIntercept l - b2)) *
              (l.getD i 0 - (trendSlope l * i + trendIntercept l)) +
            ((trendSlope l - a2) * i + (trendIntercept l - b2)) ^ 2) := by
        intro i _
        ring
      have key : sse l a2 b2 = sse l (trendSlope l) (trendIntercept l) +
          ∑ i in Finset.range l.length,
            ((trendSlope l - a2) * i + (trendIntercept l - b2)) ^ 2 := by
        rw [sse, Finset.sum_congr rfl expand, Finset.sum_add_distrib,
          Finset.sum_add_distrib, Finset.sum_add_distrib, ← Finset.mul_sum,
          ← Finset.mul_sum, hne1, hne2, sse]
        ring
      rw [key]
      have hnn : 0 ≤ ∑ i in Finset.range l.length,
          ((trendSlope l - a2) * i + (trendIntercept l - b2)) ^ 2 :=
        Finset.sum_nonneg (fun i _ => sq_nonneg _)
      linarith

/-- Witness for `calculateTrendLine_spec` at the input `[0, 2, 7]`. -/
theorem calculateTrendLine_spec_witness :
    (calculateTrendLine [0, 2, 7]).length = ([0, 2, 7] : List ℚ).length ∧
    (([0, 2, 7] : List ℚ).length < 2 → calculateTrendLine [0, 2, 7] = [0, 2, 7]) ∧
    (([0, 2, 7] : List ℚ).length = 2 → calculateTrendLine [0, 2, 7] = [0, 2, 7]) ∧
    (2 ≤ ([0, 2, 7] : List ℚ).length → ∃ a b : ℚ,
      calculateTrendLine [0, 2, 7] =
        (List.range ([0, 2, 7] : List ℚ).length).map (fun (i : ℕ) => a * (i : ℚ) + b) ∧
      ∀ a2 b2 : ℚ, sse [0, 2, 7] a b ≤ sse [0, 2, 7] a2 b2) :=
  calculateTrendLine_spec [0, 2, 7]

/-! ## Claim C6: `generateSmartLabels` -/

theorem chunkByKey_flatten {D : Type} (key : D → String) (l : List D) :
    (chunkByKey key l).flatten = l := by
  induction l with
  | nil => rfl
  | cons d ds ih =>
    show (match chunkByKey key ds with
      | [] => [[d]]
      | g :: gs =>
        match g with
        | [] => [d] :: gs
        | d2 :: _ => if key d = key d2 then (d :: g) :: gs
          else [d] :: g :: gs).flatten = d :: ds
    cases hc : chunkByKey key ds with
    | nil =>
      rw [hc] at ih
      simp only [List.flatten] at ih ⊢
      simp [← ih]
    | cons g gs =>
      rw [hc] at ih
      cases g with
      | nil =>
        simp only [List.flatten_cons, List.nil_append] at ih
        simp [List.flatten_cons, ih]
      | cons d2 g2 =>
        dsimp only
        split_ifs with hk
        · simp only [List.flatten_cons] at ih ⊢
          rw [← ih]
          simp
        · simp only [List.flatten_cons] at ih ⊢
          rw [← ih]
          simp

theorem chunkByKey_ne_nil {D : Type} (key : D → String) (l : List D) :
    ∀ g ∈ chunkByKey key l, g ≠ [] := by
  induction l with
  | nil => intro g hg; cases hg
  | cons d ds ih =>
    intro g hg
    revert hg
    show g ∈ (match chunkByKey key ds with
      | [] => [[d]]
      | g :: gs =>
        match g with
        | [] => [d] :: gs
        | d2 :: _ => if key d = key d2 then (d :: g) :: gs
          else [d] :: g :: gs) → g ≠ []
    cases hc : chunkByKey key ds with
    | nil =>
      intro hg
      rcases List.mem_singleton.mp hg with rfl
      simp
    | cons g0 gs =>
      rw [hc] at ih
      cases g0 with
      | nil =>
        intro hg
        rcases List.mem_cons.mp hg with rfl | hmem
        · simp
        · exact ih g (List.mem_cons.mpr (Or.inr hmem))
      | cons d2 g2 =>
        dsimp only
        split_ifs with hk
        · intro hg
          rcases List.mem_cons.mp hg with rfl | hmem
          · simp
          · exact ih g (List.mem_cons.mpr (Or.inr hmem))
        · intro hg
          rcases List.mem_cons.mp hg with rfl | hmem
          · simp
          · exact ih g hmem

theorem weekWalk_labels_length {D : Type} (ops : DateOps D) (gs : List (List D))
    (w c : ℕ) : (weekWalk ops gs w c).1.length = (gs.map List.length).sum := by
  induction gs generalizing w c with
  | nil => rfl
  | cons g gs ih =>
    show ((match g with
      | [] => ([] : List String)
      | d :: ds => ("Week of " ++ ops.shortLabel d) :: ds.map (fun _ => "")) ++
        (weekWalk ops gs (w + 1) (c + g.length)).1).length =
      (List.map List.length (g :: gs)).sum
    rw [List.length_append, ih]
    cases g <;> simp

theorem monthWalk_labels_length {D : Type} (ops : DateOps D) (gs : List (List D))
    (c : ℕ) : (monthWalk ops gs c).1.length = (gs.map List.length).sum := by
  induction gs generalizing c with
  | nil => rfl
  | cons g gs ih =>
    show ((match g with
      | [] => ([] : List String)
      | d :: ds => ops.monthYearLabel d :: ds.map (fun _ => "")) ++
        (monthWalk ops gs (c + g.length)).1).length =
      (List.map List.length (g :: gs)).sum
    rw [List.length_append, ih]
    cases g <;> simp

theorem weekWalk_ticks_bounds {D : Type} (ops : DateOps D) (gs : List (List D))
    (hne : ∀ g ∈ gs, g ≠ []) (w c : ℕ) :
    ∀ t ∈ (weekWalk ops gs w c).2, c ≤ t ∧ t < c + (gs.map List.length).sum := by
  induction gs generalizing w c with
  | nil => intro t ht; cases ht
  | cons g gs ih =>
    intro t ht
    have hg : g ≠ [] := hne g (List.mem_cons.mpr (Or.inl rfl))
    have hglen : 1 ≤ g.length := List.length_pos.mpr hg
    have hsplit : t ∈ (if g.length ≠ 0 ∧ w % 2 = 0 then [c] else ([] : List ℕ)) ∨
        t ∈ (weekWalk ops gs (w + 1) (c + g.length)).2 :=
      List.mem_append.mp ht
    rcases hsplit with hcase | hcase
    · have : t = c := by
        by_cases hcc : g.length ≠ 0 ∧ w % 2 = 0
        · rw [if_pos hcc] at hcase
          exact List.mem_singleton.mp hcase
        · rw [if_neg hcc] at hcase
          cases hcase
      subst this
      refine ⟨le_refl t, ?_⟩
      simp only [List.map_cons, List.sum_cons]
      omega
    · have hrec := ih (fun g2 hg2 => hne g2 (List.mem_cons.mpr (Or.inr hg2)))
        (w + 1) (c + g.length) t hcase
      simp only [List.map_cons, List.sum_cons]
      omega

theorem monthWalk_ticks_bounds {D : Type} (ops : DateOps D) (gs : List (List D))
    (hne : ∀ g ∈ gs, g ≠ []) (c : ℕ) :
    ∀ t ∈ (monthWalk ops gs c).2, c ≤ t ∧ t < c + (gs.map List.length).sum := by
  induction gs generalizing c with
  | nil => intro t ht; cases ht
  | cons g gs ih =>
    intro t ht
    have hg : g ≠ [] := hne g (List.mem_cons.mpr (Or.inl rfl))
    have hglen : 1 ≤ g.length := List.length_pos.mpr hg
    have hsplit : t ∈ (if g.length ≠ 0 then [c] else ([] : List ℕ)) ∨
        t ∈ (monthWalk ops gs (c + g.length)).2 :=
      List.mem_append.mp ht
    rcases hsplit with hcase | hcase
    · have : t = c := by
        by_cases hcc : g.length ≠ 0
        · rw [if_pos hcc] at hcase
          exact List.mem_singleton.mp hcase
        · rw [if_neg hcc] at hcase
          cases hcase
      subst this
      refine ⟨le_refl t, ?_⟩
      simp only [List.map_cons, List.sum_cons]
      omega
    · have hrec := ih (fun g2 hg2 => hne g2 (List.mem_cons.mpr (Or.inr hg2)))
        (c + g.length) t hcase
      simp only [List.map_cons, List.sum_cons]
      omega

theorem weekWalk_ticks_sorted {D : Type} (ops : DateOps D) (gs : List (List D))
    (hne : ∀ g ∈ gs, g ≠ []) (w c : ℕ) :
    List.Sorted (· < ·) (weekWalk ops gs w c).2 := by
  induction gs generalizing w c with
  | nil => exact List.sorted_nil
  | cons g gs ih =>
    have hg : g ≠ [] := hne g (List.mem_cons.mpr (Or.inl rfl))
    have hglen : 1 ≤ g.length := List.length_pos.mpr hg
    have hrest := ih (fun g2 hg2 => hne g2 (List.mem_cons.mpr (Or.inr hg2)))
      (w + 1) (c + g.length)
    have hbounds := weekWalk_ticks_bounds ops gs
      (fun g2 hg2 => hne g2 (List.mem_cons.mpr (Or.inr hg2))) (w + 1) (c + g.length)
    show List.Sorted (· < ·)
      ((if g.length ≠ 0 ∧ w % 2 = 0 then [c] else ([] : List ℕ)) ++
        (weekWalk ops gs (w + 1) (c + g.length)).2)
    rw [List.Sorted, List.pairwise_append]
    refine ⟨?_, hrest, ?_⟩
    · split_ifs <;> simp
    · intro x hx y hy
      have hxe : x = c := by
        by_cases hcc : g.length ≠ 0 ∧ w % 2 = 0
        · rw [if_pos hcc] at hx
          exact List.mem_singleton.mp hx
        · rw [if_neg hcc] at hx
          cases hx
      subst hxe
      have := (hbounds y hy).1
      omega

theorem monthWalk_ticks_sorted {D : Type} (ops : DateOps D) (gs : List (List D))
    (hne : ∀ g ∈ gs, g ≠ []) (c : ℕ) :
    List.Sorted (· < ·) (monthWalk ops gs c).2 := by
  induction gs generalizing c with
  | nil => exact List.sorted_nil
  | cons g gs ih =>
    have hg : g ≠ [] := hne g (List.mem_cons.mpr (Or.inl rfl))
    have hglen : 1 ≤ g.length := List.length_pos.mpr hg
    have hrest := ih (fun g2 hg2 => hne g2 (List.mem_cons.mpr (Or.inr hg2)))
      (c + g.length)
    have hbounds := monthWalk_ticks_bounds ops gs
      (fun g2 hg2 => hne g2 (List.mem_cons.mpr (Or.inr hg2))) (c + g.length)
    show List.Sorted (· < ·)
      ((if g.length ≠ 0 then [c] else ([] : List ℕ)) ++
        (monthWalk ops gs (c + g.length)).2)
    rw [List.Sorted, List.pairwise_append]
    refine ⟨?_, hrest, ?_⟩
    · split_ifs <;> simp
    · intro x hx y hy
      have hxe : x = c := by
        by_cases hcc : g.length ≠ 0
        · rw [if_pos hcc] at hx
          exact List.mem_singleton.mp hx
        · rw [if_neg hcc] at hx
          cases hx
      subst hxe
      have := (hbounds y hy).1
      omega

/-- C6: for every input list, `generateSmartLabels` returns exactly one
label per input point, and a tick-index list that is strictly increasing
with every element in `[0, N)` — for any date operations whatsoever. -/
theorem generateSmartLabels_spec {D : Type} (ops : DateOps D) (l : List D) :
    (generateSmartLabels ops l).1.length = l.length ∧
    List.Sorted (· < ·) (generateSmartLabels ops l).2 ∧
    ∀ t ∈ (generateSmartLabels ops l).2, t < l.length := by
  rw [generateSmartLabels]
  split_ifs
  · refine ⟨by simp, ?_, ?_⟩
    · exact List.pairwise_lt_range l.length
    · intro t ht
      exact List.mem_range.mp ht
  · refine ⟨by simp, ?_, ?_⟩
    · exact List.Pairwise.sublist (List.filter_sublist _) (List.pairwise_lt_range l.length)
    · intro t ht
      exact List.mem_range.mp (List.mem_filter.mp ht).1
  · have hne := chunkByKey_ne_nil (fun d => ops.isoDay (ops.getWeekStart d)) l
    have hsum : ((groupByWeek ops l).map List.length).sum = l.length := by
      rw [← List.length_flatten, groupByWeek, chunkByKey_flatten]
    refine ⟨?_, ?_, ?_⟩
    · rw [weekWalk_labels_length, hsum]
    · exact weekWalk_ticks_sorted ops (groupByWeek ops l) hne 0 0
    · intro t ht
      have := (weekWalk_ticks_bounds ops (groupByWeek ops l) hne 0 0 t ht).2
      rw [hsum] at this
      omega
  · have hne := chunkByKey_ne_nil (fun d => ops.monthKey d) l
    have hsum : ((groupByMonth ops l).map List.length).sum = l.length := by
      rw [← List.length_flatten, groupByMonth, chunkByKey_flatten]
    refine ⟨?_, ?_, ?_⟩
    · rw [monthWalk_labels_length, hsum]
    · exact monthWalk_ticks_sorted ops (groupByMonth ops l) hne 0
    · intro t ht
      have := (monthWalk_ticks_bounds ops (groupByMonth ops l) hne 0 t ht).2
      rw [hsum] at this
      omega

/-- Trivial date operations over `Unit`, used to instantiate the
smart-label theorem on a concrete input. -/
def unitDateOps : DateOps Unit :=
  { shortLabel := fun _ => "Jan 1"
    monthYearLabel := fun _ => "Jan 2024"
    getWeekStart := id
    isoDay := fun _ => "2024-01-01"
    monthKey := fun _ => "2024-0" }

/-- Witness for `generateSmartLabels_spec` on a concrete 3-point list. -/
theorem generateSmartLabels_spec_witness :
    (generateSmartLabels unitDateOps [(), (), ()]).1.length =
      ([(), (), ()] : List Unit).length ∧
    List.Sorted (· < ·) (generateSmartLabels unitDateOps [(), (), ()]).2 ∧
    ∀ t ∈ (generateSmartLabels unitDateOps [(), (), ()]).2,
      t < ([(), (), ()] : List Unit).length :=
  generateSmartLabels_spec unitDateOps [(), (), ()]

/-! ## Claim C1: `calculateTeamPerformanceTrend` -/

theorem participatesB_none : participatesB none = true := by decide

theorem strictParticipatesB_none : strictParticipatesB none = false := by decide

/-- A stat is produced for a session exactly when some record with its id
passes the code's participation test. -/
theorem teamStatFor_isSome_iff (records : List AthleteRecord) (s : TrainingSession) :
    (∃ st, teamStatFor records s = some st) ↔
      ∃ r ∈ records, r.sessionId = s.id ∧ participatesB r.attendance = true := by
  simp only [teamStatFor]
  split_ifs with h1 h2
  · constructor
    · intro ⟨st, hst⟩
      cases hst
    · intro ⟨r, hr, hid, hpart⟩
      exfalso
      have : r ∈ records.filter (fun a => a.sessionId == s.id) :=
        List.mem_filter.mpr ⟨hr, by simp [hid]⟩
      rw [List.isEmpty_iff.mp h1] at this
      cases this
  · constructor
    · intro _
      have hlen := h2
      rw [List.length_pos] at hlen
      obtain ⟨r, hrmem⟩ := List.exists_mem_of_ne_nil _ hlen
      have h3 := List.mem_filter.mp hrmem
      have h4 := List.mem_filter.mp h3.1
      exact ⟨r, h4.1, by simpa using h4.2, h3.2⟩
    · intro _
      exact ⟨_, rfl⟩
  · constructor
    · intro ⟨st, hst⟩
      cases hst
    · intro ⟨r, hr, hid, hpart⟩
      exfalso
      apply h2
      rw [List.length_pos]
      intro hnil
      have : r ∈ (records.filter (fun a => a.sessionId == s.id)).filter
          (fun a => participatesB a.attendance) := by
        refine List.mem_filter.mpr ⟨List.mem_filter.mpr ⟨hr, by simp [hid]⟩, hpart⟩
      rw [hnil] at this
      cases this

/-- Field characterization of a produced stat: totals, counts and the
average are taken over exactly the records with this session's id passing
the participation test. -/
theorem teamStatFor_fields (records : List AthleteRecord) (s : TrainingSession)
    (st : SessionStat) (h : teamStatFor records s = some st) :
    st.sessionId = s.id ∧
    st.totalPoints = ((records.filter (fun r =>
        r.sessionId == s.id && participatesB r.attendance)).map
        (fun r => r.points.getD 0)).sum ∧
    st.participatingAthletes = (records.filter (fun r =>
        r.sessionId == s.id && participatesB r.attendance)).length ∧
    st.avgPointsPerPlayer = round2 (st.totalPoints / st.participatingAthletes) := by
  have hff : (records.filter (fun a => a.sessionId == s.id)).filter
      (fun a => participatesB a.attendance) =
      records.filter (fun r => r.sessionId == s.id && participatesB r.attendance) := by
    rw [List.filter_filter]
    refine List.filter_congr (fun a _ => ?_)
    rw [Bool.and_comm]
  simp only [teamStatFor] at h
  split_ifs at h
  cases h
  rw [hff]
  exact ⟨rfl, rfl, rfl, rfl⟩

/-- C1 (amended): a `SessionStat` is emitted for a training session if and
only if at least one record with that session's id passes the code's
participation test — where a missing or empty attendance defaults to
`'Present'` and hence participates; and each emitted stat's
`totalPoints` / `participatingAthletes` / `avgPointsPerPlayer` are the sum
of the parsed points of, the count of, and the 2-decimal-rounded mean of,
exactly those records.  (With the spec's literal participating-attendance
reading, a record with no attendance value would not participate:
see `calculateTeamPerformanceTrend_counterexample`.) -/
theorem calculateTeamPerformanceTrend_spec (sessions : List TrainingSession)
    (records : List AthleteRecord) :
    (∀ s ∈ sessions,
      ((∃ st ∈ (calculateTeamPerformanceTrend sessions records).sessionStats,
          st.sessionId = s.id) ↔
        ∃ r ∈ records, r.sessionId = s.id ∧ participatesB r.attendance = true)) ∧
    (∀ st ∈ (calculateTeamPerformanceTrend sessions records).sessionStats,
      st.totalPoints = ((records.filter (fun r =>
          r.sessionId == st.sessionId && participatesB r.attendance)).map
          (fun r => r.points.getD 0)).sum ∧
      st.participatingAthletes = (records.filter (fun r =>
          r.sessionId == st.sessionId && participatesB r.attendance)).length ∧
      st.avgPointsPerPlayer = round2 (st.totalPoints / st.participatingAthletes)) := by
  have hmem : ∀ st, st ∈ (calculateTeamPerformanceTrend sessions records).sessionStats ↔
      st ∈ sessions.filterMap (teamStatFor records) := by
    intro st
    exact (List.perm_insertionSort statDateLe
      (sessions.filterMap (teamStatFor records))).mem_iff
  constructor
  · intro s hs
    constructor
    · intro ⟨st, hst, hid⟩
      rw [hmem] at hst
      obtain ⟨s2, hs2, hsome⟩ := List.mem_filterMap.mp hst
      obtain ⟨r, hr, hrid, hrpart⟩ := (teamStatFor_isSome_iff records s2).mp ⟨st, hsome⟩
      have hid2 := (teamStatFor_fields records s2 st hsome).1
      exact ⟨r, hr, by rw [hrid, ← hid2, hid], hrpart⟩
    · intro hex
      obtain ⟨st, hsome⟩ := (teamStatFor_isSome_iff records s).mpr hex
      refine ⟨st, ?_, (teamStatFor_fields records s st hsome).1⟩
      rw [hmem]
      exact List.mem_filterMap.mpr ⟨s, hs, hsome⟩
  · intro st hst
    rw [hmem] at hst
    obtain ⟨s2, _, hsome⟩ := List.mem_filterMap.mp hst
    obtain ⟨hid, hf1, hf2, hf3⟩ := teamStatFor_fields records s2 st hsome
    rw [← hid] at hf1 hf2
    exact ⟨hf1, hf2, hf3⟩

/-- A training session used in concrete instantiations. -/
def cSession : TrainingSession :=
  { id := 1, sessionName := some "Session A", sessionDate := some 100 }

/-- A record of session 1 whose attendance value is missing. -/
def cNoAttRecord : AthleteRecord :=
  { sessionId := 1, athleteId := 1, athleteName := some "Ava",
    sessionName := some "Session A", sessionDate := some 100, attendance := none,
    points := some 7, rebounds := none, assists := none, turnovers := none,
    fouls := none, rpe := none }

theorem jsOr_sessionA : jsOr (some "Session A") "Training Session" = "Session A" := by
  decide

/-- C1 counterexample: a session whose only record has **no** attendance
value still gets a `SessionStat` (the code defaults the status to
`'Present'`), although no record of that session has participating
attendance in the spec's literal sense; so "emitted iff some record has
participating attendance" is false as stated. -/
theorem calculateTeamPerformanceTrend_counterexample :
    (∃ st ∈ (calculateTeamPerformanceTrend [cSession] [cNoAttRecord]).sessionStats,
      st.sessionId = cSession.id) ∧
    ¬ ∃ r ∈ [cNoAttRecord], r.sessionId = cSession.id ∧
        strictParticipatesB r.attendance = true := by
  constructor
  · have hstats : (calculateTeamPerformanceTrend [cSession] [cNoAttRecord]).sessionStats =
        [{ sessionId := 1, sessionName := "Session A", sessionDate := some 100,
           totalPoints := 7, participatingAthletes := 1, avgPointsPerPlayer := 7 }] := by
      norm_num [calculateTeamPerformanceTrend, List.filterMap_cons, teamStatFor,
        cSession, cNoAttRecord, participatesB_none, jsOr_sessionA, dateOr,
        List.insertionSort, List.orderedInsert, round2, List.filter]
    rw [hstats]
    exact ⟨_, List.mem_singleton.mpr rfl, rfl⟩
  · intro ⟨r, hr, _, hstrict⟩
    rcases List.mem_singleton.mp hr with rfl
    rw [show cNoAttRecord.attendance = none from rfl, strictParticipatesB_none] at hstrict
    cases hstrict

/-- Witness for `calculateTeamPerformanceTrend_spec` at a concrete call. -/
theorem calculateTeamPerformanceTrend_spec_witness :
    (∀ s ∈ [cSession],
      ((∃ st ∈ (calculateTeamPerformanceTrend [cSession] [cNoAttRecord]).sessionStats,
          st.sessionId = s.id) ↔
        ∃ r ∈ [cNoAttRecord], r.sessionId = s.id ∧
          participatesB r.attendance = true)) ∧
    (∀ st ∈ (calculateTeamPerformanceTrend [cSession] [cNoAttRecord]).sessionStats,
      st.totalPoints = (([cNoAttRecord].filter (fun r =>
          r.sessionId == st.sessionId && participatesB r.attendance)).map
          (fun r => r.points.getD 0)).sum ∧
      st.participatingAthletes = ([cNoAttRecord].filter (fun r =>
          r.sessionId == st.sessionId && participatesB r.attendance)).length ∧
      st.avgPointsPerPlayer = round2 (st.totalPoints / st.participatingAthletes)) :=
  calculateTeamPerformanceTrend_spec [cSession] [cNoAttRecord]

/-! ## Claim C9: defaulted attendance participates everywhere -/

theorem attendanceNormalized_none : attendanceNormalized none = "present" := by
  decide

theorem attendanceNormalized_empty : attendanceNormalized (some "") = "present" := by
  decide

theorem participatesB_empty : participatesB (some "") = true := by decide

/-- C9: a record whose attendance value is missing/null (`none`) or the
empty string (`some ""`) — every value JS `||` treats as falsy — is
defaulted to `'Present'` and therefore participates in all three
calculators: alone it produces a session stat carrying its points, a
player stat with one participating session, and one athlete metric row. -/
theorem attendanceDefault_spec (r : AthleteRecord) (s : TrainingSession)
    (hatt : r.attendance = none ∨ r.attendance = some "") (hid : r.sessionId = s.id) :
    participatesB r.attendance = true ∧
    attendanceNormalized r.attendance = "present" ∧
    (calculateTeamPerformanceTrend [s] [r]).sessionStats.map
      (fun st => (st.totalPoints, st.participatingAthletes)) =
      [(r.points.getD 0, 1)] ∧
    (calculatePlayerAveragePoints [] [r]).playerStats.map
      (fun p => (p.playerId, p.sessionsParticipated, p.totalPoints)) =
      [(r.athleteId, 1, r.points.getD 0)] ∧
    (calculateAthletePerformanceMetrics [r]).sessionMetrics.map
      (fun m => (m.sessionId, m.points)) = [(r.sessionId, r.points.getD 0)] := by
  have hpart : participatesB r.attendance = true := by
    rcases hatt with h | h
    · rw [h]
      exact participatesB_none
    · rw [h]
      exact participatesB_empty
  have hnorm : attendanceNormalized r.attendance = "present" := by
    rcases hatt with h | h
    · rw [h]
      exact attendanceNormalized_none
    · rw [h]
      exact attendanceNormalized_empty
  refine ⟨hpart, hnorm, ?_, ?_, ?_⟩
  · simp [calculateTeamPerformanceTrend, List.filterMap_cons, teamStatFor, hid,
      hpart, List.insertionSort, List.orderedInsert, List.filter]
  · simp [calculatePlayerAveragePoints, playerStatFor, hpart,
      List.insertionSort, List.orderedInsert, List.filter, List.dedup_cons_of_not_mem]
  · simp [calculateAthletePerformanceMetrics, hpart,
      List.insertionSort, List.orderedInsert, List.filter]

/-- A record of session 1 whose attendance value is the empty string. -/
def cEmptyAttRecord : AthleteRecord :=
  { sessionId := 1, athleteId := 2, athleteName := some "Eli",
    sessionName := some "Session A", sessionDate := some 100,
    attendance := some "", points := some 4, rebounds := none, assists := none,
    turnovers := none, fouls := none, rpe := none }

/-- Witness for `attendanceDefault_spec` at concrete records covering both
falsy attendance values: a missing one and an empty-string one. -/
theorem attendanceDefault_spec_witness :
    (participatesB cNoAttRecord.attendance = true ∧
    attendanceNormalized cNoAttRecord.attendance = "present" ∧
    (calculateTeamPerformanceTrend [cSession] [cNoAttRecord]).sessionStats.map
      (fun st => (st.totalPoints, st.participatingAthletes)) =
      [(cNoAttRecord.points.getD 0, 1)] ∧
    (calculatePlayerAveragePoints [] [cNoAttRecord]).playerStats.map
      (fun p => (p.playerId, p.sessionsParticipated, p.totalPoints)) =
      [(cNoAttRecord.athleteId, 1, cNoAttRecord.points.getD 0)] ∧
    (calculateAthletePerformanceMetrics [cNoAttRecord]).sessionMetrics.map
      (fun m => (m.sessionId, m.points)) =
      [(cNoAttRecord.sessionId, cNoAttRecord.points.getD 0)]) ∧
    (participatesB cEmptyAttRecord.attendance = true ∧
    attendanceNormalized cEmptyAttRecord.attendance = "present" ∧
    (calculateTeamPerformanceTrend [cSession] [cEmptyAttRecord]).sessionStats.map
      (fun st => (st.totalPoints, st.participatingAthletes)) =
      [(cEmptyAttRecord.points.getD 0, 1)] ∧
    (calculatePlayerAveragePoints [] [cEmptyAttRecord]).playerStats.map
      (fun p => (p.playerId, p.sessionsParticipated, p.totalPoints)) =
      [(cEmptyAttRecord.athleteId, 1, cEmptyAttRecord.points.getD 0)] ∧
    (calculateAthletePerformanceMetrics [cEmptyAttRecord]).sessionMetrics.map
      (fun m => (m.sessionId, m.points)) =
      [(cEmptyAttRecord.sessionId, cEmptyAttRecord.points.getD 0)]) :=
  ⟨attendanceDefault_spec cNoAttRecord cSession (Or.inl rfl) rfl,
    attendanceDefault_spec cEmptyAttRecord cSession (Or.inr rfl) rfl⟩

/-! ## Claim C4: `calculatePlayerAveragePoints` -/

theorem participatesB_present : participatesB (some "Present") = true := by decide

theorem participatesB_late : participatesB (some "late") = true := by decide

/-- Field characterization of one accumulated player stat. -/
theorem playerStatFor_fields (particip : List AthleteRecord) (pid : ℕ) :
    (playerStatFor particip pid).playerId = pid ∧
    (playerStatFor particip pid).totalPoints =
      ((particip.filter (fun r => r.athleteId == pid)).map
        (fun r => r.points.getD 0)).sum ∧
    (playerStatFor particip pid).sessionsParticipated =
      (particip.filter (fun r => r.athleteId == pid)).length ∧
    (playerStatFor particip pid).averagePoints =
      round2 (if 0 < (particip.filter (fun r => r.athleteId == pid)).length then
        ((particip.filter (fun r => r.athleteId == pid)).map
          (fun r => r.points.getD 0)).sum /
          ((particip.filter (fun r => r.athleteId == pid)).length : ℚ)
      else 0) :=
  ⟨rfl, rfl, rfl, rfl⟩

/-- A record of session 1 by athlete 1 with 5 points, attendance
`Present`. -/
def ex5Record : AthleteRecord :=
  { sessionId := 1, athleteId := 1, athleteName := some "Ben",
    sessionName := some "One", sessionDate := some 100,
    attendance := some "Present", points := some 5, rebounds := none,
    assists := none, turnovers := none, fouls := none, rpe := none }

/-- A record of session 2 by athlete 1 with 15 points, attendance `late`. -/
def ex15Record : AthleteRecord :=
  { sessionId := 2, athleteId := 1, athleteName := some "Ben",
    sessionName := some "Two", sessionDate := some 200,
    attendance := some "late", points := some 15, rebounds := none,
    assists := none, turnovers := none, fouls := none, rpe := none }

/-- C4 (amended): in `calculatePlayerAveragePoints` only records passing
the code's participation test — where a missing or empty attendance
defaults to `'Present'` and hence participates — are grouped by athlete
id; each output stat's `totalPoints`, `sessionsParticipated` and
2-decimal-rounded `averagePoints` are the sum, count and mean over exactly
those records of its athlete; the output is sorted in descending order of
`averagePoints`; and the player with participating sessions of 5 and 15
points gets `averagePoints = 10` over 2 sessions.  (With the spec's
literal participating-attendance reading a record with no attendance value
would not be grouped: see
`calculatePlayerAveragePoints_counterexample`.) -/
theorem calculatePlayerAveragePoints_spec (sessions : List TrainingSession)
    (records : List AthleteRecord) :
    (∀ p ∈ (calculatePlayerAveragePoints sessions records).playerStats,
      p.totalPoints = ((records.filter (fun r =>
          r.athleteId == p.playerId && participatesB r.attendance)).map
          (fun r => r.points.getD 0)).sum ∧
      p.sessionsParticipated = (records.filter (fun r =>
          r.athleteId == p.playerId && participatesB r.attendance)).length ∧
      1 ≤ p.sessionsParticipated ∧
      p.averagePoints = round2 (p.totalPoints / p.sessionsParticipated)) ∧
    List.Sorted avgGe (calculatePlayerAveragePoints sessions records).playerStats ∧
    (calculatePlayerAveragePoints [] [ex5Record, ex15Record]).playerStats.map
      (fun p => (p.averagePoints, p.sessionsParticipated)) = [(10, 2)] := by
  refine ⟨?_, ?_, ?_⟩
  · intro p hp
    have hperm := List.perm_insertionSort avgGe
      (((records.filter (fun r => participatesB r.attendance)).map
        (·.athleteId)).dedup.map
        (playerStatFor (records.filter (fun r => participatesB r.attendance))))
    have hp2 : p ∈ ((records.filter (fun r => participatesB r.attendance)).map
        (·.athleteId)).dedup.map
        (playerStatFor (records.filter (fun r => participatesB r.attendance))) :=
      hperm.mem_iff.mp hp
    obtain ⟨pid, hpid, rfl⟩ := List.mem_map.mp hp2
    obtain ⟨hid, htot, hcnt, havg⟩ := playerStatFor_fields
      (records.filter (fun r => participatesB r.attendance)) pid
    have hcomb : (records.filter (fun r => participatesB r.attendance)).filter
        (fun r => r.athleteId == pid) =
        records.filter (fun r => r.athleteId == pid && participatesB r.attendance) :=
      List.filter_filter _ records
    have hpos : 0 < ((records.filter (fun r => participatesB r.attendance)).filter
        (fun r => r.athleteId == pid)).length := by
      rw [List.length_pos]
      intro hnil
      obtain ⟨r, hrmem, hrid⟩ := List.mem_map.mp (List.mem_dedup.mp hpid)
      have : r ∈ (records.filter (fun r => participatesB r.attendance)).filter
          (fun r => r.athleteId == pid) :=
        List.mem_filter.mpr ⟨hrmem, by simp [hrid]⟩
      rw [hnil] at this
      cases this
    rw [hcomb] at htot hcnt havg hpos
    simp only [hid]
    refine ⟨htot, hcnt, ?_, ?_⟩
    · rw [hcnt]
      omega
    · rw [havg, if_pos hpos, htot, hcnt]
  · exact List.sorted_insertionSort avgGe _
  · norm_num [calculatePlayerAveragePoints, playerStatFor, playerNameFor,
      participatesB_present, participatesB_late, List.filter, ex5Record, ex15Record,
      List.insertionSort, List.orderedInsert, List.dedup_cons_of_mem,
      List.dedup_cons_of_not_mem, round2]

/-- C4 counterexample: a record with **no** attendance value is still
grouped (defaulted to `'Present'`), although it has no participating
attendance in the spec's literal sense; so "only records with
participating attendance are grouped" is false as stated. -/
theorem calculatePlayerAveragePoints_counterexample :
    (calculatePlayerAveragePoints [] [cNoAttRecord]).playerStats.map
      (fun p => (p.playerId, p.sessionsParticipated)) = [(1, 1)] ∧
    ∀ r ∈ [cNoAttRecord], strictParticipatesB r.attendance = false := by
  constructor
  · simp [calculatePlayerAveragePoints, playerStatFor, cNoAttRecord,
      participatesB_none, List.insertionSort, List.orderedInsert, List.filter]
  · intro r hr
    rcases List.mem_singleton.mp hr with rfl
    exact strictParticipatesB_none

/-- Witness for `calculatePlayerAveragePoints_spec` at a concrete call. -/
theorem calculatePlayerAveragePoints_spec_witness :
    (∀ p ∈ (calculatePlayerAveragePoints [] [ex5Record, ex15Record]).playerStats,
      p.totalPoints = (([ex5Record, ex15Record].filter (fun r =>
          r.athleteId == p.playerId && participatesB r.attendance)).map
          (fun r => r.points.getD 0)).sum ∧
      p.sessionsParticipated = ([ex5Record, ex15Record].filter (fun r =>
          r.athleteId == p.playerId && participatesB r.attendance)).length ∧
      1 ≤ p.sessionsParticipated ∧
      p.averagePoints = round2 (p.totalPoints / p.sessionsParticipated)) ∧
    List.Sorted avgGe (calculatePlayerAveragePoints [] [ex5Record, ex15Record]).playerStats ∧
    (calculatePlayerAveragePoints [] [ex5Record, ex15Record]).playerStats.map
      (fun p => (p.averagePoints, p.sessionsParticipated)) = [(10, 2)] :=
  calculatePlayerAveragePoints_spec [] [ex5Record, ex15Record]

/-! ## Claim C8: concrete team-trend example and unweighted overall mean -/

/-- Session 1 of the C8 example. -/
def exSession1 : TrainingSession :=
  { id := 1, sessionName := some "One", sessionDate := some 100 }

/-- Session 2 of the C8 example. -/
def exSession2 : TrainingSession :=
  { id := 2, sessionName := some "Two", sessionDate := some 200 }

/-- Player 1 of session 1, 10 points. -/
def exRec11 : AthleteRecord :=
  { sessionId := 1, athleteId := 1, athleteName := some "P1",
    sessionName := some "One", sessionDate := some 100,
    attendance := some "Present", points := some 10, rebounds := none,
    assists := none, turnovers := none, fouls := none, rpe := none }

/-- Player 2 of session 1, 10 points. -/
def exRec12 : AthleteRecord :=
  { sessionId := 1, athleteId := 2, athleteName := some "P2",
    sessionName := some "One", sessionDate := some 100,
    attendance := some "Present", points := some 10, rebounds := none,
    assists := none, turnovers := none, fouls := none, rpe := none }

/-- Player 3 of session 2, 20 points. -/
def exRec23 : AthleteRecord :=
  { sessionId := 2, athleteId := 3, athleteName := some "P3",
    sessionName := some "Two", sessionDate := some 200,
    attendance := some "Present", points := some 20, rebounds := none,
    assists := none, turnovers := none, fouls := none, rpe := none }

theorem jsOr_one : jsOr (some "One") "Training Session" = "One" := by decide

theorem jsOr_two : jsOr (some "Two") "Training Session" = "Two" := by decide

/-- C8: on the two-session example (two players scoring 10 each, then one
player scoring 20) the per-session averages are 10 and 20 and the summary's
`overallAverage` is 15 — the unweighted mean of the per-session averages;
the points-per-athlete weighted mean `40/3` would round to `13.33 ≠ 15`. -/
theorem teamTrendExample_spec :
    (calculateTeamPerformanceTrend [exSession1, exSession2]
      [exRec11, exRec12, exRec23]).sessionStats.map (·.avgPointsPerPlayer) =
      [10, 20] ∧
    (calculateTeamPerformanceTrend [exSession1, exSession2]
      [exRec11, exRec12, exRec23]).summary.map (·.overallAverage) = some 15 ∧
    round2 ((10 + 10 + 20 : ℚ) / 3) ≠ 15 := by
  refine ⟨?_, ?_, by norm_num [round2]⟩
  · norm_num [calculateTeamPerformanceTrend, List.filterMap_cons, teamStatFor,
      exSession1, exSession2, exRec11, exRec12, exRec23, participatesB_present,
      jsOr_one, jsOr_two, dateOr, List.insertionSort, List.orderedInsert,
      statDateLe, round2, List.filter]
  · norm_num [calculateTeamPerformanceTrend, List.filterMap_cons, teamStatFor,
      exSession1, exSession2, exRec11, exRec12, exRec23, participatesB_present,
      jsOr_one, jsOr_two, dateOr, generateSummary, List.insertionSort,
      List.orderedInsert, statDateLe, round2, List.filter]
